import Mathlib

/-!
Verification of the live-audio engine in `src/components/VoiceLab.tsx`
(component `VoiceLab`): the playback scheduler driven by `nextStartTimeRef`
and `sourcesRef` inside the `onmessage` callback, the PCM16 sample codec
(`onaudioprocess` encode loop and `decodeAudioData`), and the session
lifecycle handlers `startLive`, `stopLive` and the `onerror` callback.

Times are modelled as rationals (the relevant double arithmetic —
`max`, addition of durations `length / 24000` — is exact on the values the
code produces), playback handles as natural-number identifiers, and the
mutable refs of the component as fields of an explicit state record.
-/

/-- Truncation toward zero, as JavaScript ToIntegerOrInfinity performs on a
finite number before a typed-array store. -/
def jsTrunc (q : ℚ) : ℤ := if 0 ≤ q then ⌊q⌋ else ⌈q⌉

/-- The 16-bit pattern stored by `int16[i] = inputData[i] * 32768` in the
`onaudioprocess` handler: the scaled sample is truncated toward zero and
reduced mod 2^16 (JavaScript ToInt16 semantics), with no clamping.
The result is the unsigned 16-bit representation, in `[0, 65536)`. -/
def encodeSample (v : ℚ) : ℕ := ((jsTrunc (v * 32768)) % 65536).toNat

/-- The byte stream of `new Uint8Array(int16.buffer)`: each stored 16-bit
value contributes its low byte then its high byte (little-endian). -/
def encodeBytes : List ℚ → List ℕ
  | [] => []
  | v :: rest => encodeSample v % 256 :: encodeSample v / 256 :: encodeBytes rest

/-- Reassembly of one signed 16-bit little-endian value from two bytes, as
`new Int16Array(data.buffer)` reads it in `decodeAudioData`. -/
def int16OfBytes (lo hi : ℕ) : ℤ :=
  if lo + 256 * hi < 32768 then ((lo + 256 * hi : ℕ) : ℤ)
  else ((lo + 256 * hi : ℕ) : ℤ) - 65536

/-- The sample loop of `decodeAudioData`: consecutive byte pairs are read as
signed 16-bit little-endian integers and divided by 32768.0. -/
def decodePairs : List ℕ → List ℚ
  | lo :: hi :: rest => (int16OfBytes lo hi : ℚ) / 32768 :: decodePairs rest
  | _ => []

theorem decodePairs_length :
    (bytes : List ℕ) → (decodePairs bytes).length = bytes.length / 2
  | [] => by simp [decodePairs]
  | [_] => by simp [decodePairs]
  | _ :: _ :: rest => by
      simp only [decodePairs, List.length_cons, decodePairs_length rest]
      omega

theorem decodePairs_getD : (bytes : List ℕ) → (i : ℕ) →
    i < (decodePairs bytes).length →
    (decodePairs bytes).getD i 0
      = (int16OfBytes (bytes.getD (2 * i) 0) (bytes.getD (2 * i + 1) 0) : ℚ)
          / 32768
  | [], i, h => by simp [decodePairs] at h
  | [_], i, h => by simp [decodePairs] at h
  | lo :: hi :: rest, 0, _ => by simp [decodePairs]
  | lo :: hi :: rest, i + 1, h => by
      have hlen : i < (decodePairs rest).length := by
        simpa [decodePairs] using h
      have h2 : 2 * (i + 1) = 2 * i + 1 + 1 := by ring
      have h3 : 2 * (i + 1) + 1 = 2 * i + 1 + 1 + 1 := by ring
      simp only [decodePairs, List.getD_cons_succ, h2, h3]
      exact decodePairs_getD rest i hlen

/-- `decodeAudioData data ctx` viewed as a pure function of the byte
sequence: `new Int16Array(data.buffer)` requires the byte length to be a
multiple of 2 (otherwise the constructor raises, the malformed-audio
failure), and on success every byte pair becomes one float sample. -/
def decodeAudioData (bytes : List ℕ) : Option (List ℚ) :=
  if bytes.length % 2 = 0 then some (decodePairs bytes) else none

/-- Duration in seconds of the `AudioBuffer` built by `decodeAudioData` from
`n` 16-bit samples: `ctx.createBuffer(1, n, 24000)` gives `n / 24000`. -/
def bufferDuration (n : ℕ) : ℚ := n / 24000

/-- Per-sample closeness used by the round-trip property: within one
16-bit quantization step. -/
def closeByQuant (v w : ℚ) : Prop := |v - w| ≤ 1 / 32768

/-- The mutable state of the `VoiceLab` component relevant to the live
session: the refs `nextStartTimeRef`, `sourcesRef`, `liveSessionRef`, the
React state `isLiveActive`, the script-processor wiring, the microphone
stream obtained from `getUserMedia`, and the console error log (as a count).
`sessionsOpened` counts calls to `ai.live.connect`, i.e. transports opened. -/
structure LiveState where
  nextStartTime : ℚ
  sources : List ℕ
  isLiveActive : Bool
  sessionOpen : Bool
  sessionsOpened : ℕ
  scriptConnected : Bool
  micCaptured : Bool
  consoleErrors : ℕ
  deriving DecidableEq, Repr

/-- The audio branch of the `onmessage` callback: `nextStartTimeRef` is first
raised to the device clock (`Math.max(nextStartTimeRef.current,
ctx.currentTime)`), the decoded buffer (of `n` samples at 24000 Hz) is
started at that time, `nextStartTimeRef` advances by the buffer duration,
and the new source node (handle `hid`) joins `sourcesRef`. Returns the
updated state and the scheduled start time passed to `source.start`. -/
def onmessageAudio (s : LiveState) (now : ℚ) (n : ℕ) (hid : ℕ) :
    LiveState × ℚ :=
  let startAt := max s.nextStartTime now
  ({ s with nextStartTime := startAt + bufferDuration n,
            sources := hid :: s.sources }, startAt)

/-- The start times produced by a sequence of `onmessage` audio deliveries,
each given as (device clock at delivery, sample count). -/
def scheduleStarts (s : LiveState) : List (ℚ × ℕ) → List ℚ
  | [] => []
  | (now, n) :: rest =>
      (onmessageAudio s now n 0).2 ::
        scheduleStarts (onmessageAudio s now n 0).1 rest

/-- The state after a sequence of `onmessage` audio deliveries. -/
def runEnqueues (s : LiveState) : List (ℚ × ℕ) → LiveState
  | [] => s
  | (now, n) :: rest => runEnqueues (onmessageAudio s now n 0).1 rest

/-- Back-to-back delivery: at each `onmessage` the device clock has not yet
overtaken `nextStartTime`. -/
def noDelayB (s : LiveState) : List (ℚ × ℕ) → Bool
  | [] => true
  | (now, n) :: rest =>
      if now ≤ s.nextStartTime then noDelayB (onmessageAudio s now n 0).1 rest
      else false

/-- `stopLive`: closes the live session (`liveSessionRef.current?.close()`),
clears `isLiveActive`, and disconnects the script processor. Nothing else is
touched: `sourcesRef`, `nextStartTimeRef` and the microphone stream keep
their values. -/
def stopLive (s : LiveState) : LiveState :=
  { s with sessionOpen := false, isLiveActive := false,
           scriptConnected := false }

/-- `startLive`, success path (microphone granted, connection succeeds): a
new transport is opened unconditionally (`ai.live.connect` — no state
check), the mic is captured, and `onopen` marks the session active and wires
the script processor. -/
def startLive (s : LiveState) : LiveState :=
  { s with micCaptured := true,
           sessionsOpened := s.sessionsOpened + 1,
           sessionOpen := true,
           isLiveActive := true,
           scriptConnected := true }

/-- The transport `onerror` callback: `(e) => console.error(e)` — the error
is logged and nothing else happens. -/
def onerrorHandler (s : LiveState) : LiveState :=
  { s with consoleErrors := s.consoleErrors + 1 }

/-- The microphone button: `onClick={isLiveActive ? stopLive : startLive}`. -/
def micButtonClick (s : LiveState) : LiveState :=
  if s.isLiveActive then stopLive s else startLive s

/-- The component's initial refs: `nextStartTimeRef = 0`, empty source set,
inactive, nothing open. -/
def initState : LiveState :=
  { nextStartTime := 0, sources := [], isLiveActive := false,
    sessionOpen := false, sessionsOpened := 0, scriptConnected := false,
    micCaptured := false, consoleErrors := 0 }

/-- A representative mid-session state: one source playing, session open and
active, microphone captured, `nextStartTime` at 5 seconds. -/
def activeState : LiveState :=
  { nextStartTime := 5, sources := [1], isLiveActive := true,
    sessionOpen := true, sessionsOpened := 1, scriptConnected := true,
    micCaptured := true, consoleErrors := 0 }

/-- The three deliveries of Scenario A: buffers of 1.0 s, 0.5 s and 2.0 s of
24 kHz audio, all arriving at device clock 0. -/
def demoItems : List (ℚ × ℕ) := [(0, 24000), (0, 12000), (0, 48000)]


theorem stored_facts (v : ℚ) :
    int16OfBytes (encodeSample v % 256) (encodeSample v / 256) % 65536
      = jsTrunc (v * 32768) % 65536
    ∧ -32768 ≤ int16OfBytes (encodeSample v % 256) (encodeSample v / 256)
    ∧ int16OfBytes (encodeSample v % 256) (encodeSample v / 256) ≤ 32767 := by
  unfold encodeSample int16OfBytes
  have h3 : (((jsTrunc (v * 32768)) % 65536).toNat : ℤ)
      = (jsTrunc (v * 32768)) % 65536 :=
    Int.toNat_of_nonneg (Int.emod_nonneg _ (by norm_num))
  rw [Nat.mod_add_div]
  split <;> refine ⟨?_, ?_, ?_⟩ <;> omega

theorem int16_roundtrip (v : ℚ) (h1 : -32768 ≤ jsTrunc (v * 32768))
    (h2 : jsTrunc (v * 32768) ≤ 32767) :
    int16OfBytes (encodeSample v % 256) (encodeSample v / 256)
      = jsTrunc (v * 32768) := by
  obtain ⟨hm, hlo, hhi⟩ := stored_facts v
  omega

/-- C7: the `onaudioprocess` quantizer applies no clamping: the 16-bit value
stored for a sample whose scaled, truncated value lies outside
[-32768, 32767] is the mod-2^16 wraparound of that value (it is congruent to
it mod 65536 and lies in the signed 16-bit range), and in particular differs
from the true truncated value — not a saturated copy of it. -/
theorem encode_wraparound (v : ℚ)
    (h : 32767 < jsTrunc (v * 32768) ∨ jsTrunc (v * 32768) < -32768) :
    int16OfBytes (encodeSample v % 256) (encodeSample v / 256) % 65536
      = jsTrunc (v * 32768) % 65536
    ∧ -32768 ≤ int16OfBytes (encodeSample v % 256) (encodeSample v / 256)
    ∧ int16OfBytes (encodeSample v % 256) (encodeSample v / 256) ≤ 32767
    ∧ int16OfBytes (encodeSample v % 256) (encodeSample v / 256)
        ≠ jsTrunc (v * 32768) := by
  obtain ⟨hm, hlo, hhi⟩ := stored_facts v
  exact ⟨hm, hlo, hhi, by omega⟩

/-- Witness for C7 at the concrete sample 1.0: the scaled truncated value
32768 overflows, and the stored pattern decodes to the wraparound. -/
theorem encode_wraparound_witness :
    int16OfBytes (encodeSample 1 % 256) (encodeSample 1 / 256) % 65536
      = jsTrunc ((1 : ℚ) * 32768) % 65536
    ∧ -32768 ≤ int16OfBytes (encodeSample 1 % 256) (encodeSample 1 / 256)
    ∧ int16OfBytes (encodeSample 1 % 256) (encodeSample 1 / 256) ≤ 32767
    ∧ int16OfBytes (encodeSample 1 % 256) (encodeSample 1 / 256)
        ≠ jsTrunc ((1 : ℚ) * 32768) :=
  encode_wraparound 1 (Or.inl (by norm_num [jsTrunc]))

/-- C8: the codec decode is a pure function of the byte sequence; it fails
(the `Int16Array` view cannot be constructed, the malformed-audio error) if
and only if the byte length is not a multiple of 2, and on every even-length
input it succeeds, producing one sample per byte pair: the little-endian
signed 16-bit value divided by 32768. -/
theorem decode_failure_iff (bytes : List ℕ) :
    ((decodeAudioData bytes).isSome ↔ bytes.length % 2 = 0)
    ∧ ∀ l, decodeAudioData bytes = some l →
        l.length = bytes.length / 2
        ∧ ∀ i, i < l.length →
            l.getD i 0
              = (int16OfBytes (bytes.getD (2 * i) 0) (bytes.getD (2 * i + 1) 0)
                  : ℚ) / 32768 := by
  constructor
  · unfold decodeAudioData
    split <;> simp_all
  · intro l hl
    have hparse : bytes.length % 2 = 0 ∧ l = decodePairs bytes := by
      unfold decodeAudioData at hl
      split at hl <;> simp_all
    obtain ⟨he, rfl⟩ := hparse
    refine ⟨decodePairs_length bytes, fun i hi => decodePairs_getD bytes i hi⟩

/-- Witness for C8 on the concrete even-length input [0, 128]: decode
succeeds with the single sample -1 (bytes 0x00 0x80 → -32768 / 32768). -/
theorem decode_failure_iff_witness :
    ([(-1 : ℚ)].getD 0 0)
      = (int16OfBytes ([0, 128].getD (2 * 0) 0) ([0, 128].getD (2 * 0 + 1) 0)
          : ℚ) / 32768 :=
  ((decode_failure_iff [0, 128]).2 [(-1 : ℚ)]
    (by norm_num [decodeAudioData, decodePairs, int16OfBytes])).2 0
    (by norm_num)

theorem jsTrunc_bounds (v : ℚ) (h1 : -1 ≤ v) (h2 : v < 1) :
    -32768 ≤ jsTrunc (v * 32768) ∧ jsTrunc (v * 32768) ≤ 32767
    ∧ |v * 32768 - (jsTrunc (v * 32768) : ℚ)| ≤ 1 := by
  have hq1 : (-32768 : ℚ) ≤ v * 32768 := by linarith
  have hq2 : v * 32768 < 32768 := by linarith
  unfold jsTrunc
  split
  case isTrue hpos =>
    have hf1 : ((⌊v * 32768⌋ : ℤ) : ℚ) ≤ v * 32768 := Int.floor_le _
    have hf2 : v * 32768 < (⌊v * 32768⌋ : ℚ) + 1 := Int.lt_floor_add_one _
    have hz : (0 : ℤ) ≤ ⌊v * 32768⌋ := Int.floor_nonneg.mpr hpos
    have hcst : ((⌊v * 32768⌋ : ℤ) : ℚ) < 32768 := lt_of_le_of_lt hf1 hq2
    have hub : ⌊v * 32768⌋ < 32768 := by exact_mod_cast hcst
    refine ⟨by omega, by omega, ?_⟩
    rw [abs_le]
    constructor <;> linarith
  case isFalse hneg =>
    have hle : v * 32768 ≤ 0 := le_of_lt (lt_of_not_le hneg)
    have hc1 : v * 32768 ≤ ((⌈v * 32768⌉ : ℤ) : ℚ) := Int.le_ceil _
    have hc2 : ((⌈v * 32768⌉ : ℤ) : ℚ) < v * 32768 + 1 := Int.ceil_lt_add_one _
    have hz : ⌈v * 32768⌉ ≤ 0 := Int.ceil_le.mpr (by exact_mod_cast hle)
    have hcst : (-32768 : ℚ) ≤ ((⌈v * 32768⌉ : ℤ) : ℚ) := le_trans hq1 hc1
    have hlb : (-32768 : ℤ) ≤ ⌈v * 32768⌉ := by exact_mod_cast hcst
    refine ⟨hlb, by omega, ?_⟩
    rw [abs_le]
    constructor <;> linarith

theorem roundTrip_sample (v : ℚ) (h1 : -1 ≤ v) (h2 : v < 1) :
    closeByQuant v
      ((int16OfBytes (encodeSample v % 256) (encodeSample v / 256) : ℚ)
        / 32768) := by
  obtain ⟨hb1, hb2, herr⟩ := jsTrunc_bounds v h1 h2
  rw [int16_roundtrip v hb1 hb2]
  unfold closeByQuant
  have hsplit : v - (jsTrunc (v * 32768) : ℚ) / 32768
      = (v * 32768 - (jsTrunc (v * 32768) : ℚ)) / 32768 := by ring
  rw [hsplit, abs_div, abs_of_pos (by norm_num : (0 : ℚ) < 32768)]
  exact div_le_div_of_nonneg_right herr (by norm_num) |>.trans_eq (by norm_num)

theorem encodeBytes_length :
    (samples : List ℚ) → (encodeBytes samples).length = 2 * samples.length
  | [] => rfl
  | _ :: rest => by
      simp only [encodeBytes, List.length_cons, encodeBytes_length rest]
      ring

theorem roundtrip_forall : (samples : List ℚ) →
    (∀ v ∈ samples, -1 ≤ v ∧ v < 1) →
    List.Forall₂ closeByQuant samples (decodePairs (encodeBytes samples))
  | [], _ => List.Forall₂.nil
  | v :: rest, hs => by
      have hv := hs v (List.mem_cons_self v rest)
      have hrest := roundtrip_forall rest
        (fun w hw => hs w (List.mem_cons_of_mem v hw))
      simpa [encodeBytes, decodePairs] using
        List.Forall₂.cons (roundTrip_sample v hv.1 hv.2) hrest

/-- Counterexample to C6 as stated: the sample 1.0 lies in [-1, 1], yet its
scaled value 32768 wraps to -32768, so the round trip returns -1.0 — an
error of 2, far above 1/32768. -/
theorem codec_roundtrip_cex :
    (-1 ≤ (1 : ℚ) ∧ (1 : ℚ) ≤ 1)
    ∧ decodeAudioData (encodeBytes [(1 : ℚ)]) = some [(-1 : ℚ)]
    ∧ ¬ closeByQuant 1 (-1) := by
  refine ⟨by norm_num, ?_, ?_⟩
  · norm_num [decodeAudioData, encodeBytes, encodeSample, jsTrunc,
      decodePairs, int16OfBytes, show Int.toNat 32768 = 32768 from rfl]
  · norm_num [closeByQuant]

/-- C6 (amended): for every sequence of samples each in [-1, 1) — the right
endpoint excluded, since 1.0 scales to 32768 and wraps to -32768 — the decode
of the encode succeeds, has the same length, and reproduces each sample
within 1/32768. -/
theorem codec_roundtrip_in_range (samples : List ℚ)
    (hs : ∀ v ∈ samples, -1 ≤ v ∧ v < 1) :
    decodeAudioData (encodeBytes samples)
        = some (decodePairs (encodeBytes samples))
    ∧ (decodePairs (encodeBytes samples)).length = samples.length
    ∧ List.Forall₂ closeByQuant samples (decodePairs (encodeBytes samples)) := by
  refine ⟨?_, ?_, roundtrip_forall samples hs⟩
  · unfold decodeAudioData
    rw [encodeBytes_length]
    simp
  · rw [decodePairs_length, encodeBytes_length]
    omega

/-- Witness for the amended C6 at the concrete in-range sample 1/2. -/
theorem codec_roundtrip_in_range_witness :
    decodeAudioData (encodeBytes [(1 : ℚ)/2])
        = some (decodePairs (encodeBytes [(1 : ℚ)/2]))
    ∧ (decodePairs (encodeBytes [(1 : ℚ)/2])).length = [(1 : ℚ)/2].length
    ∧ List.Forall₂ closeByQuant [(1 : ℚ)/2]
        (decodePairs (encodeBytes [(1 : ℚ)/2])) :=
  codec_roundtrip_in_range [(1 : ℚ)/2] (by norm_num)

theorem onmessage_nextStartTime (s : LiveState) (now : ℚ) (n hid : ℕ) :
    (onmessageAudio s now n hid).1.nextStartTime
      = max s.nextStartTime now + bufferDuration n := rfl

theorem scheduleStarts_cons (s : LiveState) (now : ℚ) (n : ℕ)
    (rest : List (ℚ × ℕ)) :
    scheduleStarts s ((now, n) :: rest)
      = max s.nextStartTime now
          :: scheduleStarts (onmessageAudio s now n 0).1 rest := rfl

theorem noDelayB_cons (s : LiveState) (now : ℚ) (n : ℕ)
    (rest : List (ℚ × ℕ)) :
    noDelayB s ((now, n) :: rest) = true
      ↔ now ≤ s.nextStartTime
        ∧ noDelayB (onmessageAudio s now n 0).1 rest = true := by
  have h : noDelayB s ((now, n) :: rest)
      = if now ≤ s.nextStartTime
        then noDelayB (onmessageAudio s now n 0).1 rest
        else false := rfl
  rw [h]
  split <;> simp_all

theorem bufferDuration_nonneg (n : ℕ) : 0 ≤ bufferDuration n := by
  unfold bufferDuration
  positivity

theorem scheduleStarts_chain : (s : LiveState) → (items : List (ℚ × ℕ)) →
    (i : ℕ) → noDelayB s items = true →
    i + 1 < (scheduleStarts s items).length →
    (scheduleStarts s items).getD (i + 1) 0
      = (scheduleStarts s items).getD i 0
          + bufferDuration (items.getD i (0, 0)).2
  | s, [], i, _, hlen => by simp [scheduleStarts] at hlen
  | s, (now, n) :: rest, 0, hnd, hlen => by
      obtain ⟨hle, hnd2⟩ := (noDelayB_cons s now n rest).mp hnd
      cases rest with
      | nil => simp [scheduleStarts] at hlen
      | cons p r2 =>
        obtain ⟨now2, n2⟩ := p
        obtain ⟨hle2, _⟩ := (noDelayB_cons _ now2 n2 r2).mp hnd2
        rw [scheduleStarts_cons, scheduleStarts_cons]
        simp only [List.getD_cons_succ, List.getD_cons_zero]
        rw [max_eq_left hle2, onmessage_nextStartTime]
  | s, (now, n) :: rest, i + 1, hnd, hlen => by
      obtain ⟨hle, hnd2⟩ := (noDelayB_cons s now n rest).mp hnd
      have hlen2 :
          i + 1 < (scheduleStarts (onmessageAudio s now n 0).1 rest).length := by
        rw [scheduleStarts_cons] at hlen
        simpa using hlen
      have ih := scheduleStarts_chain (onmessageAudio s now n 0).1 rest i
        hnd2 hlen2
      rw [scheduleStarts_cons]
      simpa [List.getD_cons_succ] using ih

/-- C1: gapless in-order scheduling. Under back-to-back delivery (the device
clock never overtaking `nextStartTime` between `onmessage` calls), each
scheduled start equals the previous start plus the previous buffer duration;
and for three buffers of 1.0 s, 0.5 s, 2.0 s of 24 kHz audio delivered at
clock 0 from the initial state, the starts are 0.0, 1.0, 1.5 and
`nextStartTime` ends at 3.5. -/
theorem gapless_inorder_scheduling :
    (∀ (s : LiveState) (items : List (ℚ × ℕ)) (i : ℕ),
        noDelayB s items = true →
        i + 1 < (scheduleStarts s items).length →
        (scheduleStarts s items).getD (i + 1) 0
          = (scheduleStarts s items).getD i 0
              + bufferDuration (items.getD i (0, 0)).2)
    ∧ scheduleStarts initState demoItems = [0, 1, 3/2]
    ∧ (runEnqueues initState demoItems).nextStartTime = 7/2 := by
  refine ⟨scheduleStarts_chain, ?_, ?_⟩
  · norm_num [scheduleStarts, onmessageAudio, bufferDuration, initState,
      demoItems]
  · norm_num [runEnqueues, onmessageAudio, bufferDuration, initState,
      demoItems]

/-- Witness for C1: the second of the three Scenario A buffers starts
exactly one buffer duration after the first. -/
theorem gapless_inorder_scheduling_witness :
    (scheduleStarts initState demoItems).getD (0 + 1) 0
      = (scheduleStarts initState demoItems).getD 0 0
          + bufferDuration (demoItems.getD 0 (0, 0)).2 :=
  gapless_inorder_scheduling.1 initState demoItems 0
    (by norm_num [noDelayB, onmessageAudio, bufferDuration, initState,
      demoItems])
    (by norm_num [scheduleStarts, onmessageAudio, bufferDuration, initState,
      demoItems])

/-- C2: every `onmessage` enqueue at device clock `now` schedules the buffer
at `max(nextStartTime, now)`: at `now` exactly when the clock has overtaken
`nextStartTime` (underrun shows as a gap, never a cut-in), never before the
previous buffer's scheduled end, and never in the past. -/
theorem no_overlap_with_realtime (s : LiveState) (now : ℚ) (n hid : ℕ) :
    (onmessageAudio s now n hid).2 = max s.nextStartTime now
    ∧ (s.nextStartTime < now → (onmessageAudio s now n hid).2 = now)
    ∧ s.nextStartTime ≤ (onmessageAudio s now n hid).2
    ∧ now ≤ (onmessageAudio s now n hid).2 :=
  ⟨rfl, fun h => max_eq_right h.le, le_max_left _ _, le_max_right _ _⟩

/-- Witness for C2: from the initial state with the clock at 1 s (an
underrun: 0 < 1), the buffer starts exactly at 1 s. -/
theorem no_overlap_with_realtime_witness :
    (onmessageAudio initState 1 24000 0).2 = 1 :=
  (no_overlap_with_realtime initState 1 24000 0).2.1
    (by norm_num [initState])

theorem scheduleStarts_chain_le : (s : LiveState) → (items : List (ℚ × ℕ)) →
    List.Chain' (· ≤ ·) (scheduleStarts s items)
  | _, [] => by simp [scheduleStarts]
  | s, (now, n) :: rest => by
      rw [scheduleStarts_cons, List.chain'_cons']
      refine ⟨?_, scheduleStarts_chain_le _ rest⟩
      intro b hb
      cases rest with
      | nil => simp [scheduleStarts] at hb
      | cons p r2 =>
        obtain ⟨now2, n2⟩ := p
        rw [scheduleStarts_cons] at hb
        simp only [List.head?_cons, Option.mem_some_iff] at hb
        subst hb
        have hd : 0 ≤ bufferDuration n := bufferDuration_nonneg n
        calc max s.nextStartTime now
            ≤ max s.nextStartTime now + bufferDuration n := by linarith
          _ = (onmessageAudio s now n 0).1.nextStartTime :=
              (onmessage_nextStartTime s now n 0).symm
          _ ≤ max (onmessageAudio s now n 0).1.nextStartTime now2 :=
              le_max_left _ _

/-- C10: `nextStartTime` never moves backwards — each `onmessage` enqueue
sets it to `max(previous value, clock) + duration` with a non-negative
duration — and consequently the scheduled starts of any delivery sequence
form a non-decreasing list. -/
theorem nextStartTime_monotone :
    (∀ (s : LiveState) (now : ℚ) (n hid : ℕ),
        (onmessageAudio s now n hid).1.nextStartTime
            = max s.nextStartTime now + bufferDuration n
        ∧ 0 ≤ bufferDuration n
        ∧ s.nextStartTime ≤ (onmessageAudio s now n hid).1.nextStartTime)
    ∧ ∀ (s : LiveState) (items : List (ℚ × ℕ)),
        List.Chain' (· ≤ ·) (scheduleStarts s items) := by
  constructor
  · intro s now n hid
    refine ⟨onmessage_nextStartTime s now n hid, bufferDuration_nonneg n, ?_⟩
    rw [onmessage_nextStartTime]
    have h0 := bufferDuration_nonneg n
    have h1 := le_max_left s.nextStartTime now
    linarith
  · exact scheduleStarts_chain_le

/-- Counterexample to C3 as stated: from a mid-session state with one active
source and `nextStartTime` at 5 s, `stopLive` neither clears the active set
nor resets `nextStartTime` to the clock (here 2 s) — the set still holds the
source and `nextStartTime` is still 5. -/
theorem stop_full_cancellation_cex :
    ¬ ((stopLive activeState).sources = []
        ∧ (stopLive activeState).nextStartTime = 2) := by
  intro h
  exact absurd h.1 (by decide)

/-- C3 (amended): `stopLive` closes the transport, marks the session
inactive and disconnects the capture script processor, but performs no
playback cancellation: the active source set, `nextStartTime` and the
captured microphone stream are all left untouched, so scheduled audio keeps
playing and the device stays captured. -/
theorem stop_teardown_actual (s : LiveState) :
    (stopLive s).sessionOpen = false
    ∧ (stopLive s).isLiveActive = false
    ∧ (stopLive s).scriptConnected = false
    ∧ (stopLive s).sources = s.sources
    ∧ (stopLive s).nextStartTime = s.nextStartTime
    ∧ (stopLive s).micCaptured = s.micCaptured :=
  ⟨rfl, rfl, rfl, rfl, rfl, rfl⟩

/-- Counterexample to C4 as stated: in an active mid-session state, the
transport error callback leaves the session active, the playback set
non-empty and the microphone captured — no teardown happens. -/
theorem error_teardown_cex :
    ¬ ((onerrorHandler activeState).isLiveActive = false
        ∧ (onerrorHandler activeState).sources = []
        ∧ (onerrorHandler activeState).micCaptured = false) := by
  intro h
  exact absurd h.1 (by decide)

/-- C4 (amended): the transport `errored` callback only writes the error to
the console; it performs no state transition and no teardown — session
activity, transport, playback set, scheduler clock, capture wiring and
microphone are all unchanged. -/
theorem onerror_only_logs (s : LiveState) :
    (onerrorHandler s).consoleErrors = s.consoleErrors + 1
    ∧ (onerrorHandler s).isLiveActive = s.isLiveActive
    ∧ (onerrorHandler s).sessionOpen = s.sessionOpen
    ∧ (onerrorHandler s).sources = s.sources
    ∧ (onerrorHandler s).nextStartTime = s.nextStartTime
    ∧ (onerrorHandler s).scriptConnected = s.scriptConnected
    ∧ (onerrorHandler s).micCaptured = s.micCaptured :=
  ⟨rfl, rfl, rfl, rfl, rfl, rfl, rfl⟩

/-- Counterexample to C5 as stated: `startLive` performs no state check —
invoked in an already-active state it opens a new transport connection
(the opened-transport count increases). -/
theorem start_guard_cex :
    activeState.isLiveActive = true
    ∧ (startLive activeState).sessionsOpened ≠ activeState.sessionsOpened := by
  exact ⟨rfl, by decide⟩

/-- C5 (amended): the Idle-only restriction on starting is enforced solely
by the UI control: when the session is active the microphone button invokes
`stopLive`, not `startLive`, so no new transport is opened through the UI —
while a direct `startLive` call in an active state would open one. -/
theorem start_only_ui_guard (s : LiveState) (h : s.isLiveActive = true) :
    micButtonClick s = stopLive s
    ∧ (micButtonClick s).sessionsOpened = s.sessionsOpened
    ∧ (startLive s).sessionsOpened = s.sessionsOpened + 1 := by
  have hbtn : micButtonClick s = stopLive s := by
    simp [micButtonClick, h]
  exact ⟨hbtn, by rw [hbtn]; rfl, rfl⟩

/-- Witness for the amended C5 at the concrete active state. -/
theorem start_only_ui_guard_witness :
    micButtonClick activeState = stopLive activeState
    ∧ (micButtonClick activeState).sessionsOpened
        = activeState.sessionsOpened
    ∧ (startLive activeState).sessionsOpened
        = activeState.sessionsOpened + 1 :=
  start_only_ui_guard activeState rfl

/-- C9: `stopLive` (the session stop / teardown path) is idempotent: a
second call is a no-op, and the scheduler state — active source set and
`nextStartTime` — is untouched by it (also when the set is empty), so
repeated stops produce no change and no error. -/
theorem cancel_idempotent (s : LiveState) :
    stopLive (stopLive s) = stopLive s
    ∧ (stopLive s).sources = s.sources
    ∧ (stopLive s).nextStartTime = s.nextStartTime :=
  ⟨rfl, rfl, rfl⟩
